import Mathlib

/-!
# Verification of the GPU resource arbiter and streaming session controller

Shallow embedding, in Lean 4, of the core of the repository
nit.vibecoding.by (a bolt.diy fork):

* `AsyncMutex` (src/app/lib/modules/llm/resource-manager.ts, lines 31-66):
  a promise-chain FIFO lock.
* `ResourceManager` (same file, lines 68-588): the resource arbiter that
  serializes GPU load/unload operations across the Ollama and LM Studio
  backends.
* The token budget computation inside `streamText`
  (src/app/lib/.server/llm/stream-text.ts, lines 199-242).
* `pickNumCtx` (src/app/lib/modules/llm/providers/ollama.ts, lines 34-46).
* The continuation loop of `chatAction` (src/app/routes/api.chat.ts,
  lines 329-409).

Network calls are embedded as effect-trace entries together with an explicit
`World` describing what the two backends report and how they react; the
tracked arbiter state is passed explicitly. Machine numbers are embedded as
`Nat`/`Int`; every JavaScript float operation used by the embedded code
(division by the power of two 2^30, `Math.floor` of a quotient by 300,
multiplication by 2.5) is exact on the relevant ranges, which is noted at
each definition.
-/

namespace Vibe

/-! ## AsyncMutex (resource-manager.ts lines 31-66)

`acquire(fn)` appends `fn` to a promise chain. The runner of the next
submission is `this._chain.then(async () => ...)`, so it fires only when the
current chain promise settles, and it runs the body only when that promise is
fulfilled. The code then stores `this._chain = next.then(() => undefined,
() => undefined)`: both handlers return, so the stored chain promise is
always fulfilled, even when the body threw. We embed promise settlement as
`PStatus` and a submitted task as a function from the shared state to the new
state plus the settlement of its own body. -/

/-- Settlement status of a JavaScript promise. -/
inductive PStatus where
  | fulfilled
  | rejected
deriving DecidableEq, Repr

/-- One task handed to `AsyncMutex.acquire`: it consumes the shared state and
reports the new state together with whether its body returned normally
(`fulfilled`) or threw (`rejected`). -/
def MutexTask (σ : Type) : Type := σ → σ × PStatus

/-- One link of the acquire chain. `chain` is the settlement of the stored
chain promise when this link runs. The body runs only if `chain` is
fulfilled; afterwards the stored chain promise is
`next.then(() => undefined, () => undefined)`, which is fulfilled no matter
how the body settled (resource-manager.ts lines 47-62). The third component
records whether the body ran and how it settled. -/
def acquireStep {σ : Type} (chain : PStatus) (t : MutexTask σ) (s : σ) :
    PStatus × σ × Option PStatus :=
  match chain with
  | .fulfilled =>
      let r := t s
      (.fulfilled, r.1, some r.2)
  | .rejected => (.rejected, s, none)

/-- Run a whole submission list through the acquire chain, in submission
order (each `acquire` call appends to the same `_chain`). Returns the final
shared state and, per task, `none` when the runner was skipped or
`some status` when the body ran and settled with `status`. -/
def runAcquires {σ : Type} : List (MutexTask σ) → PStatus → σ → σ × List (Option PStatus)
  | [], _, s => (s, [])
  | t :: ts, chain, s =>
      let r := acquireStep chain t s
      let rest := runAcquires ts r.1 r.2.1
      (rest.1, r.2.2 :: rest.2)

/-- Instrumented task: appends its identifier to a shared log, and throws
exactly when `throws` is true. -/
def logTask (id : Nat) (throws : Bool) : MutexTask (List Nat) :=
  fun log => (log ++ [id], if throws then .rejected else .fulfilled)

/-! ## Token budget computation (stream-text.ts lines 199-242) -/

/-- Characters matched by the JavaScript regular expression class `\s`
(used by `text.split(/\s+/)` at stream-text.ts line 199). -/
def isJsWs (c : Char) : Bool :=
  c.toNat = 0x20 || c.toNat = 0x9 || c.toNat = 0xa || c.toNat = 0xb ||
  c.toNat = 0xc || c.toNat = 0xd || c.toNat = 0xa0 || c.toNat = 0x1680 ||
  (0x2000 ≤ c.toNat && c.toNat ≤ 0x200a) || c.toNat = 0x2028 ||
  c.toNat = 0x2029 || c.toNat = 0x202f || c.toNat = 0x205f ||
  c.toNat = 0x3000 || c.toNat = 0xfeff

/-- Number of maximal whitespace runs in a character list; `prevWs` records
whether the previous character was whitespace. -/
def wsRunsAux : Bool → List Char → Nat
  | _, [] => 0
  | prevWs, c :: rest =>
      if isJsWs c then (if prevWs then 0 else 1) + wsRunsAux true rest
      else wsRunsAux false rest

/-- Length of the array `text.split(/\s+/)` in JavaScript: one more than the
number of maximal whitespace runs (a leading or trailing run contributes an
empty string element, and the empty string splits to `[""]`). -/
def jsSplitWsLen (s : String) : Nat :=
  wsRunsAux false s.toList + 1

/-- Embeds `estimateTokens` (stream-text.ts line 199):
`Math.ceil(text.split(/\s+/).length * 2.5)`. For a natural `n`,
`n * 2.5` is exact in float64 (n is far below 2^51) and its ceiling is
`(5 * n + 1) / 2` in natural division. -/
def estimateTokens (s : String) : Nat :=
  (5 * jsSplitWsLen s + 1) / 2

/-- Total estimated tokens of a message list (stream-text.ts lines 202-205;
every message content here is a string, as after `processedMessages`). -/
def msgTokens (msgs : List String) : Nat :=
  (msgs.map estimateTokens).sum

/-- `list.slice(-n)` for `n ≥ 1`: the last `n` elements (all of them when
`n` exceeds the length). -/
def sliceLast {α : Type} (n : Nat) (l : List α) : List α :=
  l.drop (l.length - n)

/-- Result of the token budget computation. -/
structure Budget where
  usedTokens : Int
  availableForOutput : Int
  overflow : Bool
deriving DecidableEq, Repr

/-- Embeds the budget computation of `streamText`
(stream-text.ts lines 199-242).

Inputs: the selected system prompt, the compact prompt as the library
returns it (`none` embeds a missing/undefined prompt; the code guards with
the JavaScript truthiness test `if (compactPrompt)`, so the empty string is
also rejected), whether `effectivePromptId` is already `compact`, the message
contents, and the context window `dynamicMaxTokens`.

`SAFETY_MARGIN` is 500. On overflow and a usable compact prompt the system
prompt is recomputed; if the recomputed usage still exceeds the window, the
messages are trimmed to the last
`Math.max(2, Math.floor((ctx - sysTok - 500) / 300))` entries. The float
division by 300 followed by `Math.floor` equals integer floor division
(`Int.fdiv`) on every magnitude reachable here. The returned
`availableForOutput` is `Math.max(4096, ctx - usedTokens)` (line 242). -/
def computeBudget (sysPrompt : String) (compactPrompt : Option String)
    (alreadyCompact : Bool) (msgs : List String) (ctx : Int) : Budget :=
  let sysTok0 : Int := estimateTokens sysPrompt
  let msgTok : Int := msgTokens msgs
  let used0 : Int := sysTok0 + msgTok + 500
  let isOverflow : Bool := decide (used0 > ctx)
  let st1 : Int × Int :=
    if isOverflow && !alreadyCompact then
      match compactPrompt with
      | some cp =>
          if cp ≠ "" then
            ((estimateTokens cp : Int), (estimateTokens cp : Int) + msgTok + 500)
          else (sysTok0, used0)
      | none => (sysTok0, used0)
    else (sysTok0, used0)
  let used2 : Int :=
    if isOverflow && decide (st1.2 > ctx) then
      let keep : Int := max 2 ((ctx - st1.1 - 500).fdiv 300)
      let kept := sliceLast keep.toNat msgs
      st1.1 + (msgTokens kept : Int) + 500
    else st1.2
  { usedTokens := used2
    availableForOutput := max 4096 (ctx - used2)
    overflow := isOverflow }

/-! ## pickNumCtx (ollama.ts lines 34-46) -/

/-- Embeds `pickNumCtx` (src/app/lib/modules/llm/providers/ollama.ts,
lines 34-46). The source compares `modelSizeBytes / (1024 * 1024 * 1024)`
against 20 and 10 in float64; division by the power of two 2^30 is exact for
every realistic size (below 2^53), so the comparison is equivalent to
comparing the byte count against `20 * 2^30` and `10 * 2^30`. -/
def pickNumCtx (modelSizeBytes desiredCtx : Nat) : Nat :=
  if modelSizeBytes > 20 * 1073741824 then min desiredCtx 8192
  else if modelSizeBytes > 10 * 1073741824 then min desiredCtx 16384
  else desiredCtx

/-! ## ResourceManager (resource-manager.ts lines 68-588)

Every backend interaction of the arbiter is recorded as an `Eff` entry in an
execution trace, together with an explicit `World` describing what the two
backend servers report and how they react during the call. Lock acquisition
and release by `AsyncMutex.acquire` and every assignment to
`_activeProvider`/`_activeModel` are traced as well, so that claims about
ordering and about the lock discipline are statements about traces. -/

/-- One entry of the LM Studio `GET /api/v1/models` inventory
(`LMStudioModelInfo`, resource-manager.ts lines 13-21). `isLLM` embeds
`type === 'llm'`; `instances` holds the ids of `loaded_instances`. -/
structure LMSModel where
  key : String
  isLLM : Bool
  maxCtx : Option Nat
  instances : List Nat
deriving DecidableEq, Repr

/-- Environment of one arbiter call: what the backends report and how they
react. Separate flags embed independently failing fetches: `ollamaReachable`
is the 3s probe of `GET /api/ps` (line 99-108), `ollamaPsOk` is whether the
inventory fetches of `/api/ps` succeed, `ollamaWarmupOk` is whether the 90s
warm-up generation succeeds, `lmsReachable` is the 3s probe of
`GET /api/v1/models` (lines 110-119), `lmsListOk` is whether the inventory
fetches of `/api/v1/models` succeed, `lmsLoadError` is the error payload the
`POST /api/v1/models/load` call returns (none = success), and
`lmsLoadCompletes` is whether the loaded model becomes visible before the
30s poll timeout of `_waitForLMStudioModel`. -/
structure World where
  ollamaReachable : Bool
  ollamaPsOk : Bool
  ollamaResident : List String
  ollamaWarmupOk : Bool
  lmsReachable : Bool
  lmsListOk : Bool
  lmsModels : List LMSModel
  lmsLoadError : Option String
  lmsLoadCompletes : Bool
deriving DecidableEq, Repr

/-- Tracked GPU residency state (`_activeProvider`, `_activeModel`,
resource-manager.ts lines 71-72). -/
structure RMState where
  activeProvider : Option String
  activeModel : Option String
deriving DecidableEq, Repr

/-- Trace entries: lock events of the `AsyncMutex`, assignments to the
tracked state, and every network call the arbiter issues. -/
inductive Eff where
  | lockAcquired
  | lockReleased
  | stateWrite (provider model : Option String)
  | ollamaReachCheck
  | ollamaPs
  | ollamaGenUnload (model : String)
  | ollamaChatUnload (model : String)
  | ollamaWaitUnload (keep : Option String)
  | ollamaWarmup (model : String)
  | lmsReachCheck
  | lmsList
  | lmsUnload (inst : Nat)
  | lmsWaitUnload (keep : Option String)
  | lmsLoad (key : String) (ctx : Nat)
  | lmsWaitModel (key : String)
deriving DecidableEq, Repr

/-- Failure taxonomy of the arbiter. The source throws plain `Error`s whose
messages the `catch` of `prepareLMStudio` (lines 523-536) classifies by
substring; the constructors correspond one to one to the throw sites:
`backendUnavailable` carries the message substring "not running",
`modelNotFound` the substring "not found" (with the available keys),
`loadFailed` the substring "failed to load" (with the backend error payload),
`didNotLoad` the substring "did not load", and `prepareFailed` is the
wrapping `Failed to prepare LM Studio model` error. -/
inductive PrepErr where
  | backendUnavailable
  | modelNotFound (available : List String)
  | loadFailed (msg : String)
  | didNotLoad
  | prepareFailed
deriving DecidableEq, Repr

/-- Result of one unload sweep. -/
structure UnloadRun where
  world : World
  count : Nat
  trace : List Eff
deriving Repr

/-- Embeds `_unloadAllOllama` (resource-manager.ts lines 121-163): fetch
`/api/ps` (any failure is caught and ends the sweep with count 0); for every
resident model send the zero-keepalive generate and chat calls; when
anything was unloaded, poll `_waitForOllamaUnload` (the result is only
logged). The unloaded models leave the resident list. -/
def unloadAllOllamaE (w : World) : UnloadRun :=
  if w.ollamaPsOk then
    let effs := (w.ollamaResident.map
      (fun m => [Eff.ollamaGenUnload m, Eff.ollamaChatUnload m])).flatten
    let waitT := if w.ollamaResident.length > 0 then [Eff.ollamaWaitUnload none] else []
    ⟨{ w with ollamaResident := [] }, w.ollamaResident.length,
      Eff.ollamaPs :: (effs ++ waitT)⟩
  else ⟨w, 0, [Eff.ollamaPs]⟩

/-- The `(key, instance id)` pairs the LM Studio unload loops walk: all
loaded instances of models with `type === 'llm'`
(resource-manager.ts lines 202-217 and 447-468). -/
def lmsLoadedLLMInstances (models : List LMSModel) : List (String × Nat) :=
  (models.map (fun mm =>
    if mm.isLLM then mm.instances.map (fun i => (mm.key, i)) else [])).flatten

/-- Embeds `_unloadAllLMStudio` (resource-manager.ts lines 195-235): fetch
`/api/v1/models` (failure caught, count 0); unload every loaded instance of
every llm-typed model; when anything was unloaded, poll
`_waitForLMStudioUnload` (result only logged). -/
def unloadAllLMStudioE (w : World) : UnloadRun :=
  if w.lmsListOk then
    let pairs := lmsLoadedLLMInstances w.lmsModels
    let waitT := if pairs.length > 0 then [Eff.lmsWaitUnload none] else []
    let cleared := w.lmsModels.map
      (fun mm => if mm.isLLM then { mm with instances := [] } else mm)
    ⟨{ w with lmsModels := cleared },
      pairs.length,
      Eff.lmsList :: (pairs.map (fun p => Eff.lmsUnload p.2) ++ waitT)⟩
  else ⟨w, 0, [Eff.lmsList]⟩

/-- Result of one arbiter operation. -/
structure PrepRun where
  world : World
  state : RMState
  trace : List Eff
  result : Except PrepErr Unit
deriving Repr

/-- Wraps a body in the `AsyncMutex` critical section: the lock is held for
the whole body and released in the `finally` even when the body throws
(resource-manager.ts lines 47-56). -/
def withLock (r : PrepRun) : PrepRun :=
  { r with trace := Eff.lockAcquired :: (r.trace ++ [Eff.lockReleased]) }

/-- Result of the Ollama cleanup block inside `prepareOllama`
(resource-manager.ts lines 328-366). -/
structure CleanupRun where
  world : World
  already : Bool
  trace : List Eff
deriving Repr

/-- Embeds the cleanup try-block of `prepareOllama` (lines 328-366): fetch
`/api/ps` (failure caught: `alreadyLoaded` stays false); every resident
model other than `keepModel` gets a zero-keepalive generate call; a resident
`keepModel` sets `alreadyLoaded`; when anything was unloaded, poll
`_waitForOllamaUnload` with `keepModel` kept. -/
def ollamaCleanup (w : World) (keepModel : String) : CleanupRun :=
  if w.ollamaPsOk then
    let toUnload := w.ollamaResident.filter (fun x => decide (x ≠ keepModel))
    let waitT := if toUnload.length > 0 then [Eff.ollamaWaitUnload (some keepModel)] else []
    ⟨{ w with ollamaResident := w.ollamaResident.filter (fun x => decide (x = keepModel)) },
      decide (keepModel ∈ w.ollamaResident),
      Eff.ollamaPs :: (toUnload.map Eff.ollamaGenUnload ++ waitT)⟩
  else ⟨w, false, [Eff.ollamaPs]⟩

/-- Embeds the warm-up step of `prepareOllama` (lines 368-385): skipped when
the model was already resident; otherwise a 90s generate call whose failure
is caught and only logged (the code proceeds either way: "will load on first
request"). A successful warm-up makes the model resident. -/
def ollamaWarmupStep (w : World) (already : Bool) (keepModel : String) :
    World × List Eff :=
  if already then (w, [])
  else
    (if w.ollamaReachable && w.ollamaWarmupOk then
        { w with ollamaResident := keepModel :: w.ollamaResident }
      else w,
      [Eff.ollamaWarmup keepModel])

/-- Body of `prepareOllama` (resource-manager.ts lines 300-392), without the
mutex wrapper: fast path when the tracked state already names
Ollama/`keepModel`; reachability check clearing the tracked state and
throwing `BackendUnavailable` on failure; unconditional unload of the
competing LM Studio backend; Ollama cleanup keeping `keepModel`; warm-up
when not already resident; finally the tracked state records the target.
Note the body never throws after the reachability check: warm-up failures
are swallowed (lines 382-384). -/
def prepareOllamaBody (w : World) (s : RMState) (keepModel : String) : PrepRun :=
  if s.activeProvider = some "Ollama" ∧ s.activeModel = some keepModel then
    ⟨w, s, [], .ok ()⟩
  else if w.ollamaReachable = false then
    ⟨w, ⟨none, none⟩, [Eff.ollamaReachCheck, Eff.stateWrite none none],
      .error .backendUnavailable⟩
  else
    let ul := unloadAllLMStudioE w
    let cl := ollamaCleanup ul.world keepModel
    let wm := ollamaWarmupStep cl.world cl.already keepModel
    ⟨wm.1, ⟨some "Ollama", some keepModel⟩,
      Eff.ollamaReachCheck ::
        (ul.trace ++ cl.trace ++ wm.2 ++ [Eff.stateWrite (some "Ollama") (some keepModel)]),
      .ok ()⟩

/-- `prepareOllama` (resource-manager.ts lines 300-392): the body runs inside
the GPU mutex. -/
def prepareOllamaE (w : World) (s : RMState) (keepModel : String) : PrepRun :=
  withLock (prepareOllamaBody w s keepModel)

/-- Clears the loaded instances of every llm-typed model other than
`keepModel`, as the unload loop of `prepareLMStudio` leaves the backend
(lines 447-468: instances of `keepModel` are kept, every other llm instance
is unloaded; non-llm models are skipped). -/
def lmsClearOthers (models : List LMSModel) (keepModel : String) : List LMSModel :=
  models.map (fun mm =>
    if mm.isLLM ∧ mm.key ≠ keepModel then { mm with instances := [] } else mm)

/-- Adds the instance the successful `POST /api/v1/models/load` creates to
the model named `key`. -/
def lmsAddInstance (models : List LMSModel) (key : String) : List LMSModel :=
  models.map (fun mm =>
    if mm.key = key then { mm with instances := 0 :: mm.instances } else mm)

/-- The try-block of `prepareLMStudio` (resource-manager.ts lines 443-536),
with the classification of its `catch` folded in: inventory fetch (a throw
here is caught and wrapped as the `Failed to prepare` error, embedded as
`prepareFailed`); unload of every other llm instance with a wait; when the
target is not loaded, find it in the fetched inventory (`modelNotFound`
listing the keys when absent), issue the load with
`min(desiredCtx, max_context_length ?? 131072)` (`loadFailed` when the
backend returns an error payload), and poll `_waitForLMStudioModel`
(`didNotLoad` on timeout). The `catch` rethrows the classified errors
unchanged and wraps everything else. On every error path the tracked state
keeps the value `s` it had when the block began. -/
def lmsTryBlock (w : World) (s : RMState) (keepModel : String)
    (desiredCtx : Nat) : PrepRun :=
  if w.lmsListOk = false then
    ⟨w, s, [Eff.lmsList], .error .prepareFailed⟩
  else
    let pairs := lmsLoadedLLMInstances w.lmsModels
    let keepLoaded := pairs.any (fun p => decide (p.1 = keepModel))
    let toUnload := pairs.filter (fun p => decide (p.1 ≠ keepModel))
    let waitT := if toUnload.length > 0 then [Eff.lmsWaitUnload (some keepModel)] else []
    let w2 := { w with lmsModels := lmsClearOthers w.lmsModels keepModel }
    let base := Eff.lmsList :: (toUnload.map (fun p => Eff.lmsUnload p.2) ++ waitT)
    if keepLoaded then
      ⟨w2, ⟨some "LMStudio", some keepModel⟩,
        base ++ [Eff.stateWrite (some "LMStudio") (some keepModel)], .ok ()⟩
    else
      match w.lmsModels.find? (fun mm => decide (mm.key = keepModel)) with
      | none => ⟨w2, s, base, .error (.modelNotFound (w.lmsModels.map (·.key)))⟩
      | some tm =>
          let ctx := min desiredCtx (tm.maxCtx.getD 131072)
          match w2.lmsLoadError with
          | some msg =>
              ⟨w2, s, base ++ [Eff.lmsLoad keepModel ctx], .error (.loadFailed msg)⟩
          | none =>
              if w2.lmsLoadCompletes then
                ⟨{ w2 with lmsModels := lmsAddInstance w2.lmsModels keepModel },
                  ⟨some "LMStudio", some keepModel⟩,
                  base ++ [Eff.lmsLoad keepModel ctx, Eff.lmsWaitModel keepModel,
                    Eff.stateWrite (some "LMStudio") (some keepModel)],
                  .ok ()⟩
              else
                ⟨w2, s, base ++ [Eff.lmsLoad keepModel ctx, Eff.lmsWaitModel keepModel],
                  .error .didNotLoad⟩

/-- Main part of `prepareLMStudio` after the fast path
(resource-manager.ts lines 420-542): reachability check (clearing tracked
state and throwing `BackendUnavailable` on failure); unconditional unload of
the competing Ollama backend; then the try-block `lmsTryBlock`. -/
def prepareLMStudioMain (w : World) (s : RMState) (keepModel : String)
    (desiredCtx : Nat) : PrepRun :=
  if w.lmsReachable = false then
    ⟨w, ⟨none, none⟩, [Eff.lmsReachCheck, Eff.stateWrite none none],
      .error .backendUnavailable⟩
  else
    let ul := unloadAllOllamaE w
    let r := lmsTryBlock ul.world s keepModel desiredCtx
    { r with trace := Eff.lmsReachCheck :: (ul.trace ++ r.trace) }

/-- Body of `prepareLMStudio` (resource-manager.ts lines 394-543), without
the mutex wrapper. Fast path (lines 396-418): when the tracked state already
names LMStudio/`keepModel`, verify against `/api/v1/models`; a failing
verification fetch trusts the cache and returns; a loaded instance returns;
otherwise the cache is invalid, the tracked state is cleared, and the main
part runs. -/
def prepareLMStudioBody (w : World) (s : RMState) (keepModel : String)
    (desiredCtx : Nat) : PrepRun :=
  if s.activeProvider = some "LMStudio" ∧ s.activeModel = some keepModel then
    if w.lmsListOk = false then ⟨w, s, [Eff.lmsList], .ok ()⟩
    else
      match w.lmsModels.find? (fun mm => decide (mm.key = keepModel)) with
      | some mm =>
          if mm.instances ≠ [] then ⟨w, s, [Eff.lmsList], .ok ()⟩
          else
            let r := prepareLMStudioMain w ⟨none, none⟩ keepModel desiredCtx
            { r with trace := Eff.lmsList :: Eff.stateWrite none none :: r.trace }
      | none =>
          let r := prepareLMStudioMain w ⟨none, none⟩ keepModel desiredCtx
          { r with trace := Eff.lmsList :: Eff.stateWrite none none :: r.trace }
  else prepareLMStudioMain w s keepModel desiredCtx

/-- `prepareLMStudio` (resource-manager.ts lines 394-543): the body runs
inside the GPU mutex; `desiredCtx` defaults to 32768. -/
def prepareLMStudioE (w : World) (s : RMState) (keepModel : String)
    (desiredCtx : Nat := 32768) : PrepRun :=
  withLock (prepareLMStudioBody w s keepModel desiredCtx)

/-- Body of `unloadAll` (resource-manager.ts lines 545-564): when no provider
is tracked the method returns at once (line 547-549) without contacting any
backend; otherwise both unload sweeps run and the tracked state is
cleared. -/
def unloadAllBody (w : World) (s : RMState) : PrepRun :=
  if s.activeProvider = none then ⟨w, s, [], .ok ()⟩
  else
    let u1 := unloadAllOllamaE w
    let u2 := unloadAllLMStudioE u1.world
    ⟨u2.world, ⟨none, none⟩, u1.trace ++ u2.trace ++ [Eff.stateWrite none none], .ok ()⟩

/-- `unloadAll` (resource-manager.ts lines 545-564): the body runs inside
the GPU mutex. -/
def unloadAllE (w : World) (s : RMState) : PrepRun :=
  withLock (unloadAllBody w s)

/-- Body of `forceUnloadAll` (resource-manager.ts lines 566-582): both
sweeps run unconditionally and the tracked state is cleared. -/
def forceUnloadAllBody (w : World) (_s : RMState) : PrepRun :=
  let u1 := unloadAllOllamaE w
  let u2 := unloadAllLMStudioE u1.world
  ⟨u2.world, ⟨none, none⟩, u1.trace ++ u2.trace ++ [Eff.stateWrite none none], .ok ()⟩

/-- `forceUnloadAll` (resource-manager.ts lines 566-582): the body runs
inside the GPU mutex. -/
def forceUnloadAllE (w : World) (s : RMState) : PrepRun :=
  withLock (forceUnloadAllBody w s)

/-- `resetTracking` (resource-manager.ts lines 584-587): a synchronous
method that assigns `null` to both tracked fields directly, with no
`_gpuMutex.acquire` around it. -/
def resetTrackingE (_s : RMState) : RMState × List Eff :=
  (⟨none, none⟩, [Eff.stateWrite none none])

/-! ### Trace classifiers -/

/-- Lock events. -/
def isLockEff : Eff → Bool
  | .lockAcquired => true
  | .lockReleased => true
  | _ => false

/-- Calls that reach the LM Studio server. -/
def isLMSEff : Eff → Bool
  | .lmsReachCheck => true
  | .lmsList => true
  | .lmsUnload _ => true
  | .lmsWaitUnload _ => true
  | .lmsLoad _ _ => true
  | .lmsWaitModel _ => true
  | _ => false

/-- Calls that reach the Ollama server. -/
def isOllamaEff : Eff → Bool
  | .ollamaReachCheck => true
  | .ollamaPs => true
  | .ollamaGenUnload _ => true
  | .ollamaChatUnload _ => true
  | .ollamaWaitUnload _ => true
  | .ollamaWarmup _ => true
  | _ => false

/-- Backend unload or load calls: the calls that evict models from or load
models onto the GPU (probes, inventory fetches and waits are reads). -/
def isMutationEff : Eff → Bool
  | .ollamaGenUnload _ => true
  | .ollamaChatUnload _ => true
  | .ollamaWarmup _ => true
  | .lmsUnload _ => true
  | .lmsLoad _ _ => true
  | _ => false

/-- No unload/load call occurs in the trace. -/
def mutationFree (t : List Eff) : Bool :=
  t.all (fun e => !isMutationEff e)

/-- Scans a trace keeping the lock depth; every `stateWrite` must occur at
positive depth. -/
def writesInsideLockAux (d : Nat) : List Eff → Bool
  | [] => true
  | e :: t =>
      match e with
      | .lockAcquired => writesInsideLockAux (d + 1) t
      | .lockReleased => writesInsideLockAux (d - 1) t
      | .stateWrite _ _ => decide (0 < d) && writesInsideLockAux d t
      | _ => writesInsideLockAux d t

/-- Every write of the tracked state in the trace happens while the mutex is
held. -/
def writesInsideLock (t : List Eff) : Bool :=
  writesInsideLockAux 0 t

/-- An effect is a network call or a state write (the only entries an
arbiter body emits; lock events come from the `withLock` wrapper alone). -/
def isNetOrWrite (e : Eff) : Bool :=
  isOllamaEff e || isLMSEff e ||
    (match e with
      | .stateWrite _ _ => true
      | _ => false)

/-- An effect is an LM Studio call or a state write (the only entries the
LM Studio try-block emits). -/
def lmsOrWrite (e : Eff) : Bool :=
  isLMSEff e ||
    (match e with
      | .stateWrite _ _ => true
      | _ => false)

/-- The Ollama side of a world cannot produce unload calls: either the
inventory fetch fails or nothing is resident. -/
def OllamaQuiet (w : World) : Prop :=
  w.ollamaPsOk = false ∨ w.ollamaResident = []

/-- Every llm-typed model other than `m` has no loaded instances. -/
def NonKeepClear (L : List LMSModel) (m : String) : Prop :=
  ∀ mm ∈ L, mm.isLLM = true → mm.key ≠ m → mm.instances = []

/-- Some llm-typed model named `m` has a loaded instance. -/
def KeepPresent (L : List LMSModel) (m : String) : Prop :=
  ∃ mm ∈ L, mm.isLLM = true ∧ mm.key = m ∧ mm.instances ≠ []

/-- After a successful `prepareLMStudio`, the resulting world lets a repeat
call finish without issuing any unload or load: either the verification
fetch fails (the cache is trusted), or the first inventory entry named `m`
has a loaded instance (fast path verifies), or the inventory is consistent —
nothing but `m` loaded, `m` present — and the Ollama side is quiet. -/
def SecondSafe (w : World) (m : String) : Prop :=
  w.lmsListOk = false ∨
  (∃ mm, w.lmsModels.find? (fun x => decide (x.key = m)) = some mm ∧ mm.instances ≠ []) ∨
  (w.lmsListOk = true ∧ OllamaQuiet w ∧ NonKeepClear w.lmsModels m ∧ KeepPresent w.lmsModels m)

/-! ## Streaming session continuation loop (api.chat.ts lines 329-409) -/

/-- A chat message as the continuation loop manipulates it. -/
inductive ChatMsg where
  | user (content : String)
  | assistant (content : String)
deriving DecidableEq, Repr

/-- Modelled from the spec: the repository imports `CONTINUE_PROMPT` from
`~/lib/common/prompts/prompts`, a file not included here; per the spec the
continuation message carries a "continue" instruction. Only its identity
matters to the claims. -/
def CONTINUE_PROMPT : String :=
  "Continue your prior response without repeating any previous content."

/-- The synthetic continuation user message (api.chat.ts lines 374-378):
the partial output is pushed as an assistant message and this user message
repeats the model and provider markers of the original request. -/
def mkContinueMsg (model provider : String) : ChatMsg :=
  .user ("[Model: " ++ model ++ "]\n\n[Provider: " ++ provider ++ "]\n\n" ++ CONTINUE_PROMPT)

/-- State of one streaming session.

`switches` embeds `stream.switches` of the `SwitchableStream` instance
created at api.chat.ts line 62. Modelled from the spec: `SwitchableStream`
(src not included here) exposes `switches` as the count of stream source
switches performed on it; `chatAction` reads `stream.switches` at lines 363
and 367 but never invokes any switching (or any other) method on `stream`,
so the counter keeps the value it was constructed with, zero.

`callsIssued` counts the generation calls (`streamText` invocations) issued
so far; `segLimitErrored` records the `Maximum segments reached` throw. -/
structure SessionState where
  switches : Nat
  callsIssued : Nat
  segLimitErrored : Bool
  messages : List ChatMsg
deriving DecidableEq, Repr

/-- Embeds one run of `options.onFinish` (api.chat.ts lines 332-408) when
the finish reason is `length`: when `stream.switches >= MAX_RESPONSE_SEGMENTS`
the handler throws `Cannot continue message: Maximum segments reached`;
otherwise it appends the partial assistant output and the synthetic
continuation user message and issues another `streamText` call with the same
options (hence the same handler). Nothing in the handler mutates
`stream.switches`. -/
def onFinishLength (maxSegments : Nat) (model provider segText : String)
    (st : SessionState) : SessionState :=
  if st.segLimitErrored then st
  else if st.switches ≥ maxSegments then { st with segLimitErrored := true }
  else
    { st with
        messages := st.messages ++ [ChatMsg.assistant segText, mkContinueMsg model provider]
        callsIssued := st.callsIssued + 1 }

/-- Session state after the initial `streamText` call of `chatAction`
(api.chat.ts line 419): one generation call issued, no switches performed,
no error. -/
def initialSession (msgs : List ChatMsg) : SessionState :=
  ⟨0, 1, false, msgs⟩

/-- A session in which every generation call finishes with reason `length`:
the state after `n` runs of the `onFinish` handler, the `k`-th handler run
seeing partial output `texts k`. -/
def runLengthSession (maxSegments : Nat) (model provider : String)
    (texts : Nat → String) : Nat → SessionState
  | 0 => initialSession []
  | n + 1 => onFinishLength maxSegments model provider (texts n)
      (runLengthSession maxSegments model provider texts n)

/-! ## Concrete inputs used by counterexamples and witnesses -/

/-- A system prompt of 1641 words ("a") separated by single spaces. -/
def sysBigChars : List Char := 'a' :: (List.replicate 1640 [' ', 'a']).flatten

/-- The same prompt as a string; `estimateTokens` gives it 4103 tokens. -/
def sysBig : String := String.mk sysBigChars

/-- A world where both backends are fully reachable, Ollama has the model
"qwen" resident, and LM Studio has an llm model "qwen" with one loaded
instance as well as an unrelated loaded model "mistral". -/
def wBoth : World :=
  ⟨true, true, ["qwen"], true, true, true,
    [⟨"qwen", true, some 65536, [7]⟩, ⟨"mistral", true, some 32768, [9]⟩],
    none, true⟩

/-- A world where Ollama is reachable with nothing resident and a failing
warm-up, and LM Studio is reachable with the model "qwen" present but
returning an error payload on load. -/
def wWarmupFails : World :=
  ⟨true, true, [], false, true, true,
    [⟨"qwen", true, some 65536, []⟩],
    some "insufficient VRAM", false⟩

/-- The cleared tracked state. -/
def sNone : RMState := ⟨none, none⟩

/-- Classifies the arbiter results that embed a load or warm-up failure
other than target-unreachable and model-not-found: the load error payload,
the load-confirmation timeout, and the wrapped `Failed to prepare` error. -/
def isLoadPhaseFailure : Except PrepErr Unit → Bool
  | .error (.loadFailed _) => true
  | .error .didNotLoad => true
  | .error .prepareFailed => true
  | _ => false

/-! ## Helper lemmas -/

lemma runAcquires_logTasks (specs : List (Nat × Bool)) (log : List Nat) :
    runAcquires (specs.map fun p => logTask p.1 p.2) PStatus.fulfilled log =
      (log ++ specs.map Prod.fst,
        specs.map fun p => some (if p.2 then PStatus.rejected else PStatus.fulfilled)) := by
  induction specs generalizing log with
  | nil => simp [runAcquires]
  | cons p ps ih =>
      simp only [List.map_cons, runAcquires, acquireStep, logTask, ih,
        List.append_assoc, List.singleton_append]

lemma msgTokens_append (a b : List String) :
    msgTokens (a ++ b) = msgTokens a + msgTokens b := by
  simp [msgTokens]

lemma estimateTokens_empty : estimateTokens "" = 3 := rfl

lemma wsRunsAux_flatten_repl (n : Nat) :
    wsRunsAux false (List.replicate n [' ', 'a']).flatten = n := by
  induction n with
  | zero => rfl
  | succ k ih =>
      rw [List.replicate_succ, List.flatten_cons]
      show 1 + wsRunsAux false (List.replicate k [' ', 'a']).flatten = k + 1
      omega

lemma estimateTokens_sysBig : estimateTokens sysBig = 4103 := by
  have h : wsRunsAux false sysBig.data = 1640 := by
    show wsRunsAux false sysBigChars = 1640
    show wsRunsAux false (List.replicate 1640 [' ', 'a']).flatten = 1640
    exact wsRunsAux_flatten_repl 1640
  simp [estimateTokens, jsSplitWsLen, h]

lemma computeBudget_of_fits (sys : String) (compact : Option String)
    (ac : Bool) (msgs : List String) (ctx : Int)
    (h : (estimateTokens sys : Int) + (msgTokens msgs : Int) + 500 ≤ ctx) :
    computeBudget sys compact ac msgs ctx =
      ⟨(estimateTokens sys : Int) + (msgTokens msgs : Int) + 500,
        max 4096 (ctx - ((estimateTokens sys : Int) + (msgTokens msgs : Int) + 500)),
        false⟩ := by
  have hd : decide ((estimateTokens sys : Int) + (msgTokens msgs : Int) + 500 > ctx)
      = false := decide_eq_false (by omega)
  simp [computeBudget, hd]

lemma isLockEff_false_of_netOrWrite {e : Eff} (h : isNetOrWrite e = true) :
    isLockEff e = false := by
  cases e <;> first | rfl | exact Bool.noConfusion h

lemma isLMSEff_false_of_ollama {e : Eff} (h : isOllamaEff e = true) :
    isLMSEff e = false := by
  cases e <;> first | rfl | exact Bool.noConfusion h

lemma isOllamaEff_false_of_lms {e : Eff} (h : isLMSEff e = true) :
    isOllamaEff e = false := by
  cases e <;> first | rfl | exact Bool.noConfusion h

lemma netOrWrite_of_ollama {e : Eff} (h : isOllamaEff e = true) :
    isNetOrWrite e = true := by
  simp [isNetOrWrite, h]

lemma netOrWrite_of_lms {e : Eff} (h : isLMSEff e = true) :
    isNetOrWrite e = true := by
  simp [isNetOrWrite, h]

lemma ollamaEff_unloadAllOllamaE (w : World) :
    ∀ e ∈ (unloadAllOllamaE w).trace, isOllamaEff e = true := by
  intro e he
  unfold unloadAllOllamaE at he
  split at he <;>
    simp only [List.mem_cons, List.mem_append, List.mem_flatten, List.mem_map,
      List.not_mem_nil, or_false] at he
  · rcases he with rfl | he
    · rfl
    rcases he with ⟨l, ⟨mdl, _, rfl⟩, hel⟩ | he
    · simp only [List.mem_cons, List.not_mem_nil, or_false] at hel
      rcases hel with rfl | rfl <;> rfl
    · split at he
      · simp only [List.mem_cons, List.not_mem_nil, or_false] at he
        subst he; rfl
      · exact absurd he (List.not_mem_nil e)
  · subst he; rfl

lemma lmsEff_unloadAllLMStudioE (w : World) :
    ∀ e ∈ (unloadAllLMStudioE w).trace, isLMSEff e = true := by
  intro e he
  unfold unloadAllLMStudioE at he
  split at he <;>
    simp only [List.mem_cons, List.mem_append, List.mem_map,
      List.not_mem_nil, or_false] at he
  · rcases he with rfl | he
    · rfl
    rcases he with ⟨p, _, rfl⟩ | he
    · rfl
    · split at he
      · simp only [List.mem_cons, List.not_mem_nil, or_false] at he
        subst he; rfl
      · exact absurd he (List.not_mem_nil e)
  · subst he; rfl

lemma ollamaEff_ollamaCleanup (w : World) (m : String) :
    ∀ e ∈ (ollamaCleanup w m).trace, isOllamaEff e = true := by
  intro e he
  unfold ollamaCleanup at he
  split at he <;>
    simp only [List.mem_cons, List.mem_append, List.mem_map,
      List.not_mem_nil, or_false] at he
  · rcases he with rfl | he
    · rfl
    rcases he with ⟨x, _, rfl⟩ | he
    · rfl
    · split at he
      · simp only [List.mem_cons, List.not_mem_nil, or_false] at he
        subst he; rfl
      · exact absurd he (List.not_mem_nil e)
  · subst he; rfl

lemma ollamaEff_ollamaWarmupStep (w : World) (a : Bool) (m : String) :
    ∀ e ∈ (ollamaWarmupStep w a m).2, isOllamaEff e = true := by
  intro e he
  unfold ollamaWarmupStep at he
  split at he
  · exact absurd he (List.not_mem_nil e)
  · simp only [List.mem_cons, List.not_mem_nil, or_false] at he
    subst he; rfl

lemma netOrWrite_of_lmsOrWrite {e : Eff} (h : lmsOrWrite e = true) :
    isNetOrWrite e = true := by
  cases e <;> first | rfl | exact Bool.noConfusion h

lemma isLockEff_false_of_lmsOrWrite {e : Eff} (h : lmsOrWrite e = true) :
    isLockEff e = false := by
  cases e <;> first | rfl | exact Bool.noConfusion h

lemma isOllamaEff_false_of_lmsOrWrite {e : Eff} (h : lmsOrWrite e = true) :
    isOllamaEff e = false := by
  cases e <;> first | rfl | exact Bool.noConfusion h

lemma lmsOrWrite_lmsTryBlock (w : World) (s : RMState) (m : String) (d : Nat) :
    ∀ e ∈ (lmsTryBlock w s m d).trace, lmsOrWrite e = true := by
  have hall : (lmsTryBlock w s m d).trace.all lmsOrWrite = true := by
    simp only [lmsTryBlock]
    repeat' split
    all_goals
      simp [List.all_cons, List.all_append, List.all_eq_true, lmsOrWrite, isLMSEff,
        List.mem_map, List.mem_filter]
    all_goals (rintro x a b - - rfl; simp)
  exact List.all_eq_true.mp hall

lemma netOrWrite_prepareOllamaBody (w : World) (s : RMState) (m : String) :
    ∀ e ∈ (prepareOllamaBody w s m).trace, isNetOrWrite e = true := by
  intro e he
  unfold prepareOllamaBody at he
  split at he
  · exact absurd he (List.not_mem_nil e)
  split at he
  · simp only [List.mem_cons, List.not_mem_nil, or_false] at he
    rcases he with rfl | rfl <;> rfl
  · simp only [List.mem_cons, List.mem_append, List.not_mem_nil, or_false, or_assoc] at he
    rcases he with rfl | h | h | h | rfl
    · rfl
    · exact netOrWrite_of_lms (lmsEff_unloadAllLMStudioE w e h)
    · exact netOrWrite_of_ollama (ollamaEff_ollamaCleanup _ _ e h)
    · exact netOrWrite_of_ollama (ollamaEff_ollamaWarmupStep _ _ _ e h)
    · rfl

lemma netOrWrite_prepareLMStudioMain (w : World) (s : RMState) (m : String) (d : Nat) :
    ∀ e ∈ (prepareLMStudioMain w s m d).trace, isNetOrWrite e = true := by
  intro e he
  unfold prepareLMStudioMain at he
  split at he
  · simp only [List.mem_cons, List.not_mem_nil, or_false] at he
    rcases he with rfl | rfl <;> rfl
  · simp only [List.mem_cons, List.mem_append, List.not_mem_nil, or_false, or_assoc] at he
    rcases he with rfl | h | h
    · rfl
    · exact netOrWrite_of_ollama (ollamaEff_unloadAllOllamaE w e h)
    · exact netOrWrite_of_lmsOrWrite (lmsOrWrite_lmsTryBlock _ _ _ _ e h)

lemma netOrWrite_prepareLMStudioBody (w : World) (s : RMState) (m : String) (d : Nat) :
    ∀ e ∈ (prepareLMStudioBody w s m d).trace, isNetOrWrite e = true := by
  intro e he
  unfold prepareLMStudioBody at he
  split at he
  · split at he
    · simp only [List.mem_cons, List.not_mem_nil, or_false] at he
      subst he; rfl
    · split at he
      · split at he
        · simp only [List.mem_cons, List.not_mem_nil, or_false] at he
          subst he; rfl
        · simp only [List.mem_cons] at he
          rcases he with rfl | rfl | h
          · rfl
          · rfl
          · exact netOrWrite_prepareLMStudioMain _ _ _ _ e h
      · simp only [List.mem_cons] at he
        rcases he with rfl | rfl | h
        · rfl
        · rfl
        · exact netOrWrite_prepareLMStudioMain _ _ _ _ e h
  · exact netOrWrite_prepareLMStudioMain _ _ _ _ e he

lemma netOrWrite_unloadAllBody (w : World) (s : RMState) :
    ∀ e ∈ (unloadAllBody w s).trace, isNetOrWrite e = true := by
  intro e he
  unfold unloadAllBody at he
  split at he
  · exact absurd he (List.not_mem_nil e)
  · simp only [List.mem_cons, List.mem_append, List.not_mem_nil, or_false, or_assoc] at he
    rcases he with h | h | rfl
    · exact netOrWrite_of_ollama (ollamaEff_unloadAllOllamaE w e h)
    · exact netOrWrite_of_lms (lmsEff_unloadAllLMStudioE _ e h)
    · rfl

lemma netOrWrite_forceUnloadAllBody (w : World) (s : RMState) :
    ∀ e ∈ (forceUnloadAllBody w s).trace, isNetOrWrite e = true := by
  intro e he
  unfold forceUnloadAllBody at he
  simp only [List.mem_cons, List.mem_append, List.not_mem_nil, or_false, or_assoc] at he
  rcases he with h | h | rfl
  · exact netOrWrite_of_ollama (ollamaEff_unloadAllOllamaE w e h)
  · exact netOrWrite_of_lms (lmsEff_unloadAllLMStudioE _ e h)
  · rfl

lemma writesInsideLockAux_append (t r : List Eff)
    (h : ∀ e ∈ t, isLockEff e = false) :
    ∀ d : Nat, 0 < d → writesInsideLockAux d (t ++ r) = writesInsideLockAux d r := by
  induction t with
  | nil => intro d _; rfl
  | cons e t ih =>
      intro d hd
      have he := h e (List.mem_cons_self e t)
      have ht : ∀ x ∈ t, isLockEff x = false := fun x hx => h x (List.mem_cons_of_mem _ hx)
      cases e <;>
        first
          | exact Bool.noConfusion he
          | (show writesInsideLockAux d (t ++ r) = _; exact ih ht d hd)
          | (show (decide (0 < d) && writesInsideLockAux d (t ++ r)) = _
             simp only [ih ht d hd, decide_eq_true hd, Bool.true_and])

lemma writesInsideLock_withLock (t : List Eff)
    (h : ∀ e ∈ t, isLockEff e = false) :
    writesInsideLock (Eff.lockAcquired :: (t ++ [Eff.lockReleased])) = true := by
  show writesInsideLockAux 1 (t ++ [Eff.lockReleased]) = true
  rw [writesInsideLockAux_append t [Eff.lockReleased] h 1 (by omega)]
  rfl

lemma withLock_state (r : PrepRun) : (withLock r).state = r.state := rfl

lemma withLock_world (r : PrepRun) : (withLock r).world = r.world := rfl

lemma withLock_result (r : PrepRun) : (withLock r).result = r.result := rfl

lemma mutationFree_withLock (r : PrepRun) :
    mutationFree (withLock r).trace = mutationFree r.trace := by
  simp [mutationFree, withLock, List.all_append, isMutationEff]

lemma unloadAllOllamaE_world_lms (w : World) :
    (unloadAllOllamaE w).world.lmsModels = w.lmsModels ∧
    (unloadAllOllamaE w).world.lmsListOk = w.lmsListOk ∧
    (unloadAllOllamaE w).world.lmsLoadError = w.lmsLoadError ∧
    (unloadAllOllamaE w).world.lmsLoadCompletes = w.lmsLoadCompletes ∧
    (unloadAllOllamaE w).world.lmsReachable = w.lmsReachable := by
  unfold unloadAllOllamaE
  split <;> exact ⟨rfl, rfl, rfl, rfl, rfl⟩

lemma ollamaQuiet_unloadAllOllamaE (w : World) :
    OllamaQuiet (unloadAllOllamaE w).world := by
  unfold unloadAllOllamaE OllamaQuiet
  split
  · exact Or.inr rfl
  · next h => exact Or.inl (by simpa using h)

lemma mutationFree_unloadAllOllamaE_of_quiet (w : World) (h : OllamaQuiet w) :
    mutationFree (unloadAllOllamaE w).trace = true := by
  rcases h with h | h
  · unfold unloadAllOllamaE
    rw [if_neg (by simp [h])]
    rfl
  · unfold unloadAllOllamaE
    by_cases hp : w.ollamaPsOk = true
    · rw [if_pos hp]
      simp [h, mutationFree, isMutationEff]
    · rw [if_neg hp]
      rfl

lemma mem_lmsPairs {L : List LMSModel} {p : String × Nat} :
    p ∈ lmsLoadedLLMInstances L ↔
      ∃ mm ∈ L, mm.isLLM = true ∧ mm.key = p.1 ∧ p.2 ∈ mm.instances := by
  obtain ⟨p1, p2⟩ := p
  simp only [lmsLoadedLLMInstances, List.mem_flatten, List.mem_map]
  constructor
  · rintro ⟨l, ⟨mm, hmm, rfl⟩, hp⟩
    by_cases hll : mm.isLLM = true
    · rw [if_pos hll] at hp
      rcases List.mem_map.mp hp with ⟨i, hi, hpair⟩
      obtain ⟨rfl, rfl⟩ : mm.key = p1 ∧ i = p2 := by
        injection hpair with h1 h2; exact ⟨h1, h2⟩
      exact ⟨mm, hmm, hll, rfl, hi⟩
    · rw [if_neg hll] at hp
      exact absurd hp (List.not_mem_nil _)
  · rintro ⟨mm, hmm, hll, hk, hi⟩
    refine ⟨mm.instances.map (fun i => (mm.key, i)), ⟨mm, hmm, by rw [if_pos hll]⟩, ?_⟩
    exact List.mem_map.mpr ⟨p2, hi, by rw [hk]⟩

lemma toUnload_nil_of_nonKeepClear {L : List LMSModel} {m : String}
    (h : NonKeepClear L m) :
    (lmsLoadedLLMInstances L).filter (fun p => decide (p.1 ≠ m)) = [] := by
  rw [List.filter_eq_nil_iff]
  rintro ⟨p1, p2⟩ hp
  rcases mem_lmsPairs.mp hp with ⟨mm, hmm, hll, hk, hi⟩
  simp only [decide_eq_true_eq, Decidable.not_not]
  by_contra hne
  have : mm.instances = [] := h mm hmm hll (by simpa [hk] using hne)
  rw [this] at hi
  exact absurd hi (List.not_mem_nil _)

lemma any_keep_of_keepPresent {L : List LMSModel} {m : String}
    (h : KeepPresent L m) :
    (lmsLoadedLLMInstances L).any (fun p => decide (p.1 = m)) = true := by
  rcases h with ⟨mm, hmm, hll, hk, hne⟩
  rcases List.exists_mem_of_ne_nil _ hne with ⟨i, hi⟩
  exact List.any_eq_true.mpr
    ⟨(mm.key, i), mem_lmsPairs.mpr ⟨mm, hmm, hll, rfl, hi⟩, by simp [hk]⟩

lemma find?_key_map (f : LMSModel → LMSModel) (hf : ∀ mm, (f mm).key = mm.key)
    (L : List LMSModel) (k : String) :
    (L.map f).find? (fun mm => decide (mm.key = k)) =
      (L.find? (fun mm => decide (mm.key = k))).map f := by
  induction L with
  | nil => rfl
  | cons a t ih =>
      simp only [List.map_cons, List.find?_cons, hf a]
      by_cases h : a.key = k <;> simp [h, ih]

lemma key_clearOthers (m : String) (mm : LMSModel) :
    ((fun x => if x.isLLM ∧ x.key ≠ m then { x with instances := [] } else x) mm).key
      = mm.key := by
  by_cases hc : mm.isLLM = true ∧ mm.key ≠ m
  · simp only [if_pos hc]
  · simp only [if_neg hc]

lemma key_addInstance (m : String) (mm : LMSModel) :
    ((fun x => if x.key = m then { x with instances := 0 :: x.instances } else x) mm).key
      = mm.key := by
  by_cases hc : mm.key = m
  · simp only [if_pos hc]
  · simp only [if_neg hc]

lemma nonKeepClear_clearOthers (L : List LMSModel) (m : String) :
    NonKeepClear (lmsClearOthers L m) m := by
  intro mm hmm hll hk
  rcases List.mem_map.mp hmm with ⟨x, hx, rfl⟩
  by_cases hc : x.isLLM = true ∧ x.key ≠ m
  · rw [if_pos hc]
  · rw [if_neg hc] at hll hk ⊢
    exact absurd ⟨hll, hk⟩ hc

lemma keepPresent_clearOthers {L : List LMSModel} {m : String}
    (h : KeepPresent L m) :
    KeepPresent (lmsClearOthers L m) m := by
  rcases h with ⟨mm, hmm, hll, hk, hne⟩
  refine ⟨mm, ?_, hll, hk, hne⟩
  unfold lmsClearOthers
  exact List.mem_map.mpr ⟨mm, hmm, by rw [if_neg (by simp [hk])]⟩

lemma lmsTryBlock_state_or (w : World) (s : RMState) (m : String) (d : Nat) :
    (lmsTryBlock w s m d).state = s ∨
      ((lmsTryBlock w s m d).state = ⟨some "LMStudio", some m⟩ ∧
        (lmsTryBlock w s m d).result = .ok ()) := by
  simp only [lmsTryBlock]
  repeat' split
  all_goals simp

lemma lmsTryBlock_ollama_fields (w : World) (s : RMState) (m : String) (d : Nat) :
    (lmsTryBlock w s m d).world.ollamaPsOk = w.ollamaPsOk ∧
    (lmsTryBlock w s m d).world.ollamaResident = w.ollamaResident ∧
    (lmsTryBlock w s m d).world.lmsListOk = w.lmsListOk := by
  simp only [lmsTryBlock]
  repeat' split
  all_goals exact ⟨rfl, rfl, rfl⟩
lemma keepPresent_of_any {L : List LMSModel} {m : String}
    (h : (lmsLoadedLLMInstances L).any (fun p => decide (p.1 = m)) = true) :
    KeepPresent L m := by
  rcases List.any_eq_true.mp h with ⟨p, hp, hpm⟩
  rcases mem_lmsPairs.mp hp with ⟨mm, hmm, hll, hk, hi⟩
  exact ⟨mm, hmm, hll, by simp_all, List.ne_nil_of_mem hi⟩

lemma lmsTry_ok_facts (w : World) (s : RMState) (m : String) (d : Nat)
    (hok : (lmsTryBlock w s m d).result = .ok ()) :
    (lmsTryBlock w s m d).state = ⟨some "LMStudio", some m⟩ ∧
      ((∃ mm, (lmsTryBlock w s m d).world.lmsModels.find?
            (fun x => decide (x.key = m)) = some mm ∧ mm.instances ≠ []) ∨
        ((lmsTryBlock w s m d).world.lmsListOk = true ∧
          NonKeepClear (lmsTryBlock w s m d).world.lmsModels m ∧
          KeepPresent (lmsTryBlock w s m d).world.lmsModels m)) := by
  by_cases h1 : w.lmsListOk = false
  · simp only [lmsTryBlock, if_pos h1] at hok
    exact absurd hok (by simp)
  · have h1t : w.lmsListOk = true := by revert h1; cases w.lmsListOk <;> simp
    by_cases h2 : ((lmsLoadedLLMInstances w.lmsModels).any fun p => decide (p.1 = m)) = true
    · simp only [lmsTryBlock, if_neg h1, if_pos h2]
      refine ⟨by first | rfl | trivial, Or.inr ⟨h1t, nonKeepClear_clearOthers w.lmsModels m,
        keepPresent_clearOthers (keepPresent_of_any h2)⟩⟩
    · cases hf : w.lmsModels.find? (fun mm => decide (mm.key = m)) with
      | none =>
          simp only [lmsTryBlock, if_neg h1, if_neg h2, hf] at hok
          exact absurd hok (by simp)
      | some tm =>
          cases hle : w.lmsLoadError with
          | some msg =>
              simp only [lmsTryBlock, if_neg h1, if_neg h2, hf, hle] at hok
              exact absurd hok (by simp)
          | none =>
              by_cases hlc : w.lmsLoadCompletes = true
              · simp only [lmsTryBlock, if_neg h1, if_neg h2, hf, hle, if_pos hlc]
                refine ⟨by first | rfl | trivial, Or.inl ?_⟩
                have e1 : lmsAddInstance (lmsClearOthers w.lmsModels m) m =
                    (w.lmsModels.map
                      (fun x => if x.isLLM ∧ x.key ≠ m then { x with instances := [] } else x)).map
                      (fun x => if x.key = m then { x with instances := 0 :: x.instances } else x) := rfl
                rw [e1, find?_key_map _ (key_addInstance m) _ m,
                  find?_key_map _ (key_clearOthers m) _ m, hf]
                refine ⟨_, rfl, ?_⟩
                by_cases hc1 : tm.isLLM = true ∧ tm.key ≠ m
                · simp only [if_pos hc1]
                  by_cases hc2 : (({ tm with instances := [] } : LMSModel)).key = m
                  · simp only [if_pos hc2]; simp
                  · simp only [if_neg hc2]
                    exfalso
                    have : tm.key = m := by
                      have := List.find?_some hf
                      simpa using this
                    exact absurd this hc1.2
                · simp only [if_neg hc1]
                  have : tm.key = m := by
                    have := List.find?_some hf
                    simpa using this
                  simp only [if_pos this]
                  simp
              · simp only [lmsTryBlock, if_neg h1, if_neg h2, hf, hle, if_neg hlc] at hok
                exact absurd hok (by simp)
lemma lmsMain_ok (w : World) (s : RMState) (m : String) (d : Nat)
    (hok : (prepareLMStudioMain w s m d).result = .ok ()) :
    (prepareLMStudioMain w s m d).state = ⟨some "LMStudio", some m⟩ ∧
      SecondSafe (prepareLMStudioMain w s m d).world m := by
  by_cases hr : w.lmsReachable = false
  · simp only [prepareLMStudioMain, if_pos hr] at hok
    exact absurd hok (by simp)
  · simp only [prepareLMStudioMain, if_neg hr] at hok ⊢
    have hf := lmsTry_ok_facts (unloadAllOllamaE w).world s m d hok
    refine ⟨hf.1, ?_⟩
    rcases hf.2 with ⟨mm, hfind, hne⟩ | ⟨hlo, hnkc, hkp⟩
    · exact Or.inr (Or.inl ⟨mm, hfind, hne⟩)
    · refine Or.inr (Or.inr ⟨hlo, ?_, hnkc, hkp⟩)
      have hq := ollamaQuiet_unloadAllOllamaE w
      have hfld := lmsTryBlock_ollama_fields (unloadAllOllamaE w).world s m d
      unfold OllamaQuiet at hq ⊢
      rw [hfld.1, hfld.2.1]
      exact hq

lemma tryQuiet_mutFree (w : World) (s : RMState) (m : String) (d : Nat)
    (hlo : w.lmsListOk = true) (hnkc : NonKeepClear w.lmsModels m)
    (hkp : KeepPresent w.lmsModels m) :
    mutationFree (lmsTryBlock w s m d).trace = true := by
  have h2 : ((lmsLoadedLLMInstances w.lmsModels).any fun p => decide (p.1 = m)) = true :=
    any_keep_of_keepPresent hkp
  have h3 : (lmsLoadedLLMInstances w.lmsModels).filter (fun p => decide (p.1 ≠ m)) = [] :=
    toUnload_nil_of_nonKeepClear hnkc
  simp only [lmsTryBlock, if_neg (by simp [hlo] : ¬(w.lmsListOk = false)), h3, if_pos h2]
  simp [mutationFree, isMutationEff]

lemma mainQuiet_mutFree (w : World) (s : RMState) (m : String) (d : Nat)
    (hq : OllamaQuiet w) (hlo : w.lmsListOk = true)
    (hnkc : NonKeepClear w.lmsModels m) (hkp : KeepPresent w.lmsModels m) :
    mutationFree (prepareLMStudioMain w s m d).trace = true := by
  by_cases hr : w.lmsReachable = false
  · simp only [prepareLMStudioMain, if_pos hr]
    rfl
  · simp only [prepareLMStudioMain, if_neg hr]
    have h1 : mutationFree (unloadAllOllamaE w).trace = true :=
      mutationFree_unloadAllOllamaE_of_quiet w hq
    have hpres := unloadAllOllamaE_world_lms w
    have h2 : mutationFree (lmsTryBlock (unloadAllOllamaE w).world s m d).trace = true := by
      apply tryQuiet_mutFree
      · rw [hpres.2.1]; exact hlo
      · rw [hpres.1]; exact hnkc
      · rw [hpres.1]; exact hkp
    simp only [mutationFree] at h1 h2 ⊢
    simp only [List.all_cons, List.all_append, h1, h2]
    rfl

lemma second_mutFree (wp : World) (m : String) (d : Nat) (h : SecondSafe wp m) :
    mutationFree (prepareLMStudioBody wp ⟨some "LMStudio", some m⟩ m d).trace = true := by
  have hcond : (⟨some "LMStudio", some m⟩ : RMState).activeProvider = some "LMStudio" ∧
      (⟨some "LMStudio", some m⟩ : RMState).activeModel = some m := ⟨rfl, rfl⟩
  by_cases hlo : wp.lmsListOk = false
  · simp only [prepareLMStudioBody, if_pos hcond, if_pos hlo]
    rfl
  · rcases h with h | ⟨mm, hfind, hne⟩ | ⟨hlot, hq, hnkc, hkp⟩
    · exact absurd h hlo
    · simp only [prepareLMStudioBody, if_pos hcond, if_neg hlo, hfind, if_pos hne]
      rfl
    · cases hfind : wp.lmsModels.find? (fun x => decide (x.key = m)) with
      | none =>
          exfalso
          rcases hkp with ⟨mm, hmm, hll, hk, hne⟩
          have := List.find?_eq_none.mp hfind mm hmm
          simp [hk] at this
      | some mm =>
          by_cases hne : mm.instances ≠ []
          · simp only [prepareLMStudioBody, if_pos hcond, if_neg hlo, hfind, if_pos hne]
            rfl
          · simp only [prepareLMStudioBody, if_pos hcond, if_neg hlo, hfind, if_neg hne]
            have hm := mainQuiet_mutFree wp ⟨none, none⟩ m d hq hlot hnkc hkp
            simp only [mutationFree] at hm
            simp [mutationFree, List.all_cons, isMutationEff]
            exact fun x hx => by
              have := List.all_eq_true.mp hm x hx
              simpa using this

lemma c4_lms_aux (w : World) (s : RMState) (m : String) (d : Nat)
    (hok : (prepareLMStudioBody w s m d).result = .ok ()) :
    mutationFree (prepareLMStudioBody (prepareLMStudioBody w s m d).world
      (prepareLMStudioBody w s m d).state m d).trace = true := by
  by_cases hfast : s.activeProvider = some "LMStudio" ∧ s.activeModel = some m
  · obtain ⟨a, b⟩ := s
    have h1 : a = some "LMStudio" := hfast.1
    have h2 : b = some m := hfast.2
    subst h1; subst h2
    by_cases hlo : w.lmsListOk = false
    · simp only [prepareLMStudioBody, if_pos hfast, if_pos hlo]
      exact second_mutFree w m d (Or.inl hlo)
    · cases hfind : w.lmsModels.find? (fun mm => decide (mm.key = m)) with
      | none =>
          simp only [prepareLMStudioBody, if_pos hfast, if_neg hlo, hfind] at hok ⊢
          have hmm := lmsMain_ok w ⟨none, none⟩ m d hok
          rw [hmm.1]
          exact second_mutFree _ m d hmm.2
      | some mm =>
          by_cases hne : mm.instances ≠ []
          · simp only [prepareLMStudioBody, if_pos hfast, if_neg hlo, hfind, if_pos hne]
            exact second_mutFree w m d (Or.inr (Or.inl ⟨mm, hfind, hne⟩))
          · simp only [prepareLMStudioBody, if_pos hfast, if_neg hlo, hfind, if_neg hne] at hok ⊢
            have hmm := lmsMain_ok w ⟨none, none⟩ m d hok
            rw [hmm.1]
            exact second_mutFree _ m d hmm.2
  · simp only [prepareLMStudioBody, if_neg hfast] at hok ⊢
    have hmm := lmsMain_ok w s m d hok
    rw [hmm.1]
    exact second_mutFree _ m d hmm.2
lemma lmsTryBlock_state_of_loadfail (w : World) (s : RMState) (m : String) (d : Nat)
    (h : isLoadPhaseFailure (lmsTryBlock w s m d).result = true) :
    (lmsTryBlock w s m d).state = s := by
  rcases lmsTryBlock_state_or w s m d with hs | ⟨_, hr⟩
  · exact hs
  · rw [hr] at h
    exact Bool.noConfusion h

lemma lmsMain_state_of_loadfail (w : World) (s : RMState) (m : String) (d : Nat)
    (h : isLoadPhaseFailure (prepareLMStudioMain w s m d).result = true) :
    (prepareLMStudioMain w s m d).state = s := by
  by_cases hr : w.lmsReachable = false
  · simp only [prepareLMStudioMain, if_pos hr] at h
    exact Bool.noConfusion h
  · simp only [prepareLMStudioMain, if_neg hr] at h ⊢
    exact lmsTryBlock_state_of_loadfail _ _ _ _ h

lemma c3_lms_aux (w : World) (s : RMState) (m : String) (d : Nat)
    (h : isLoadPhaseFailure (prepareLMStudioBody w s m d).result = true) :
    (prepareLMStudioBody w s m d).state ≠ ⟨some "LMStudio", some m⟩ := by
  by_cases hfast : s.activeProvider = some "LMStudio" ∧ s.activeModel = some m
  · obtain ⟨a, b⟩ := s
    have h1 : a = some "LMStudio" := hfast.1
    have h2 : b = some m := hfast.2
    subst h1; subst h2
    by_cases hlo : w.lmsListOk = false
    · simp only [prepareLMStudioBody, if_pos hfast, if_pos hlo] at h
      exact Bool.noConfusion h
    · cases hfind : w.lmsModels.find? (fun mm => decide (mm.key = m)) with
      | none =>
          simp only [prepareLMStudioBody, if_pos hfast, if_neg hlo, hfind] at h ⊢
          rw [lmsMain_state_of_loadfail w ⟨none, none⟩ m d h]
          simp
      | some mm =>
          by_cases hne : mm.instances ≠ []
          · simp only [prepareLMStudioBody, if_pos hfast, if_neg hlo, hfind, if_pos hne] at h
            exact Bool.noConfusion h
          · simp only [prepareLMStudioBody, if_pos hfast, if_neg hlo, hfind, if_neg hne] at h ⊢
            rw [lmsMain_state_of_loadfail w ⟨none, none⟩ m d h]
            simp
  · simp only [prepareLMStudioBody, if_neg hfast] at h ⊢
    rw [lmsMain_state_of_loadfail w s m d h]
    intro heq
    exact hfast ⟨by rw [heq], by rw [heq]⟩

lemma prepOllamaBody_err (w : World) (s : RMState) (m : String) :
    ∀ er, (prepareOllamaBody w s m).result = .error er → er = .backendUnavailable := by
  intro er h
  unfold prepareOllamaBody at h
  split at h
  · exact absurd h (by simp)
  split at h
  · injection h with h2
    exact h2.symm
  · exact absurd h (by simp)

lemma prepOllamaBody_ok_state (w : World) (s : RMState) (m : String)
    (hok : (prepareOllamaBody w s m).result = .ok ()) :
    (prepareOllamaBody w s m).state = ⟨some "Ollama", some m⟩ := by
  by_cases hfast : s.activeProvider = some "Ollama" ∧ s.activeModel = some m
  · obtain ⟨a, b⟩ := s
    have h1 : a = some "Ollama" := hfast.1
    have h2 : b = some m := hfast.2
    subst h1; subst h2
    simp [prepareOllamaBody]
  · by_cases hr : w.ollamaReachable = false
    · simp only [prepareOllamaBody, if_neg hfast, if_pos hr] at hok
      exact absurd hok (by simp)
    · simp only [prepareOllamaBody, if_neg hfast, if_neg hr]

lemma c4_ollama_aux (w : World) (s : RMState) (m : String)
    (hok : (prepareOllamaBody w s m).result = .ok ()) :
    mutationFree (prepareOllamaBody (prepareOllamaBody w s m).world
      (prepareOllamaBody w s m).state m).trace = true := by
  rw [prepOllamaBody_ok_state w s m hok]
  simp [prepareOllamaBody, mutationFree]
lemma c5_ollama_aux (w : World) (s : RMState) (m : String)
    (hfast : ¬(s.activeProvider = some "Ollama" ∧ s.activeModel = some m))
    (hr : w.ollamaReachable = true) :
    ∃ t, (prepareOllamaE w s m).trace =
        Eff.lockAcquired :: Eff.ollamaReachCheck :: ((unloadAllLMStudioE w).trace ++ t) ∧
      ∀ e ∈ t, isLMSEff e = false := by
  have hr2 : ¬(w.ollamaReachable = false) := by simp [hr]
  refine ⟨(ollamaCleanup (unloadAllLMStudioE w).world m).trace ++
      ((ollamaWarmupStep (ollamaCleanup (unloadAllLMStudioE w).world m).world
          (ollamaCleanup (unloadAllLMStudioE w).world m).already m).2 ++
        ([Eff.stateWrite (some "Ollama") (some m)] ++ [Eff.lockReleased])), ?_, ?_⟩
  · simp only [prepareOllamaE, withLock, prepareOllamaBody, if_neg hfast, if_neg hr2]
    simp [List.append_assoc]
  · intro e he
    simp only [List.mem_append, List.mem_cons, List.not_mem_nil, or_false] at he
    rcases he with h | h | rfl | rfl
    · exact isLMSEff_false_of_ollama (ollamaEff_ollamaCleanup _ _ e h)
    · exact isLMSEff_false_of_ollama (ollamaEff_ollamaWarmupStep _ _ _ e h)
    · rfl
    · rfl

lemma c5_lms_aux (w : World) (s : RMState) (m : String) (d : Nat)
    (hfast : ¬(s.activeProvider = some "LMStudio" ∧ s.activeModel = some m))
    (hr : w.lmsReachable = true) :
    ∃ t, (prepareLMStudioE w s m d).trace =
        Eff.lockAcquired :: Eff.lmsReachCheck :: ((unloadAllOllamaE w).trace ++ t) ∧
      ∀ e ∈ t, isOllamaEff e = false := by
  have hr2 : ¬(w.lmsReachable = false) := by simp [hr]
  refine ⟨(lmsTryBlock (unloadAllOllamaE w).world s m d).trace ++ [Eff.lockReleased], ?_, ?_⟩
  · simp only [prepareLMStudioE, withLock, prepareLMStudioBody, if_neg hfast,
      prepareLMStudioMain, if_neg hr2]
    simp [List.append_assoc]
  · intro e he
    simp only [List.mem_append, List.mem_cons, List.not_mem_nil, or_false] at he
    rcases he with h | rfl
    · exact isOllamaEff_false_of_lmsOrWrite (lmsOrWrite_lmsTryBlock _ _ _ _ e h)
    · rfl
/-! ## Claims -/

/-- C1: For every sequence of tasks submitted to the Mutex Queue via
`acquire`, the tasks execute in submission order (the shared execution log
equals the list of submitted identifiers, in order), and every task runs —
a task that throws does not prevent any later-submitted task from acquiring
the lock and running (every outcome slot is `some`, even after rejected
bodies). Each task runs only after the previous one has finished by the
sequential chaining of `runAcquires`, which embeds the promise chain of
`AsyncMutex.acquire`. -/
theorem c1_mutex_fifo_and_fault_isolation : ∀ specs : List (Nat × Bool),
    (runAcquires (specs.map fun p => logTask p.1 p.2) PStatus.fulfilled []).1 =
      specs.map Prod.fst ∧
    ∀ o ∈ (runAcquires (specs.map fun p => logTask p.1 p.2) PStatus.fulfilled []).2,
      o.isSome = true := by
  intro specs
  rw [runAcquires_logTasks]
  refine ⟨rfl, ?_⟩
  intro o ho
  simp only at ho
  rcases List.mem_map.mp ho with ⟨p, _, rfl⟩
  rfl

/-- C2 counterexample: with no provider tracked as active (the state the
claim explicitly includes), `unloadAll` returns at the early guard
(resource-manager.ts line 547) and contacts neither backend: the unload
protocol is not issued against either backend, contradicting the claim that
it is issued against both for every tracked state. -/
theorem c2_counterexample :
    ¬(Eff.ollamaPs ∈ (unloadAllE wBoth sNone).trace ∧
      Eff.lmsList ∈ (unloadAllE wBoth sNone).trace) := by
  decide

/-- C2 amended: when a provider is tracked as active, `unloadAll` issues the
unload protocol against both backends (the Ollama and LM Studio inventory
sweeps both run) and clears the tracked state; when no provider is tracked,
it returns immediately without any backend call and leaves the state
unchanged. -/
theorem c2_unloadAll_amended : ∀ (w : World) (s : RMState),
    (s.activeProvider ≠ none →
      Eff.ollamaPs ∈ (unloadAllE w s).trace ∧
      Eff.lmsList ∈ (unloadAllE w s).trace ∧
      (unloadAllE w s).state = ⟨none, none⟩) ∧
    (s.activeProvider = none →
      (unloadAllE w s).trace = [Eff.lockAcquired, Eff.lockReleased] ∧
      (unloadAllE w s).state = s) := by
  intro w s
  constructor
  · intro h
    simp only [unloadAllE, withLock, unloadAllBody, if_neg h]
    refine ⟨?_, ?_, by first | rfl | trivial⟩
    · have h1 : Eff.ollamaPs ∈ (unloadAllOllamaE w).trace := by
        unfold unloadAllOllamaE
        split <;> exact List.mem_cons_self _ _
      simp [List.mem_cons, List.mem_append, h1]
    · have h2 : Eff.lmsList ∈ (unloadAllLMStudioE (unloadAllOllamaE w).world).trace := by
        unfold unloadAllLMStudioE
        split <;> exact List.mem_cons_self _ _
      simp [List.mem_cons, List.mem_append, h2]
  · intro h
    simp only [unloadAllE, withLock, unloadAllBody, if_pos h]
    exact ⟨rfl, trivial⟩

/-- C2 amended, witness at a tracked-active state: both inventory sweeps are
issued. -/
theorem c2_unloadAll_amended_witness :
    Eff.ollamaPs ∈ (unloadAllE wBoth ⟨some "Ollama", some "qwen"⟩).trace ∧
    Eff.lmsList ∈ (unloadAllE wBoth ⟨some "Ollama", some "qwen"⟩).trace ∧
    (unloadAllE wBoth ⟨some "Ollama", some "qwen"⟩).state = ⟨none, none⟩ :=
  (c2_unloadAll_amended wBoth ⟨some "Ollama", some "qwen"⟩).1 (by decide)

/-- C3 counterexample, refuting both parts of the claim at concrete inputs.
First, in the world `wWarmupFails` the Ollama warm-up step is attempted
(the warm-up effect is in the trace; the model is not resident and
`ollamaWarmupOk` is false, so the 90s warm-up call fails) for a reason
that is neither target-unreachable (the reachability check passed) nor
model-not-found — yet `prepareOllama` succeeds and records
(Ollama, "qwen") as the active pair, because the catch at
resource-manager.ts lines 382-384 swallows the warm-up failure: the call
does not fail and the state does not remain untracked. Second, in the
same world `prepareLMStudio` entered with (Ollama, "other") tracked does
fail — the load endpoint returns an error payload, neither unreachable nor
not-found — but the tracked state ends at the untouched prior value
(Ollama, "other"), not cleared: the throw at lines 504-507 happens before
any assignment to the tracked fields on this path. -/
theorem c3_counterexample :
    wWarmupFails.ollamaWarmupOk = false ∧
    wWarmupFails.ollamaResident = [] ∧
    (prepareOllamaE wWarmupFails sNone "qwen").result = .ok () ∧
    (prepareOllamaE wWarmupFails sNone "qwen").state = ⟨some "Ollama", some "qwen"⟩ ∧
    Eff.ollamaWarmup "qwen" ∈ (prepareOllamaE wWarmupFails sNone "qwen").trace ∧
    (prepareLMStudioE wWarmupFails ⟨some "Ollama", some "other"⟩ "qwen" 32768).result =
      .error (.loadFailed "insufficient VRAM") ∧
    (prepareLMStudioE wWarmupFails ⟨some "Ollama", some "other"⟩ "qwen" 32768).state =
      ⟨some "Ollama", some "other"⟩ := by
  refine ⟨rfl, rfl, rfl, rfl, ?_, rfl, rfl⟩
  decide

/-- C3 amended: in `prepareLMStudio`, a load or warm-up failure that is
neither target-unreachable nor model-not-found (the load error payload, the
load-confirmation timeout, or a wrapped PrepareFailed) makes the call fail
and the tracked state is never left recorded as the target (provider,
model) pair — the failure is never propagated as a successful transition.
The claim's clearing guarantee does not hold: depending on the entry path
the state ends at its prior value (counterexample above) or cleared (the
stale-cache path of lines 408-412), but never at the target pair. In
`prepareOllama` there is no failing load step at all: the only error it can
raise is BackendUnavailable; warm-up failures are swallowed and the call
completes successfully. -/
theorem c3_prepare_failure_amended : ∀ (w : World) (s : RMState) (m : String) (d : Nat),
    (isLoadPhaseFailure (prepareLMStudioE w s m d).result = true →
      (prepareLMStudioE w s m d).state ≠ ⟨some "LMStudio", some m⟩) ∧
    (∀ er, (prepareOllamaE w s m).result = .error er →
      er = PrepErr.backendUnavailable) := by
  intro w s m d
  constructor
  · intro h
    simp only [prepareLMStudioE, withLock_result] at h
    simp only [prepareLMStudioE, withLock_state]
    exact c3_lms_aux w s m d h
  · intro er h
    simp only [prepareOllamaE, withLock_result] at h
    exact prepOllamaBody_err w s m er h

/-- C3 amended, witness: the LM Studio load in `wWarmupFails` returns an
error payload, the call fails as a load failure, and the tracked state is
not the target pair. -/
theorem c3_prepare_failure_amended_witness :
    (prepareLMStudioE wWarmupFails sNone "qwen" 32768).state ≠
      ⟨some "LMStudio", some "qwen"⟩ :=
  (c3_prepare_failure_amended wWarmupFails sNone "qwen" 32768).1 (by rfl)

/-- C4: calling prepare a second time immediately after a successful
prepare of the same (provider, model), with no intervening state change
(the second call runs on the world and tracked state the first call left),
performs zero backend unload, load or warm-up calls: for Ollama the second
call is the pure fast path; for LM Studio it verifies residency with a read
of the inventory and issues no mutation. -/
theorem c4_idempotent_prepare : ∀ (w : World) (s : RMState) (m : String) (d : Nat),
    ((prepareOllamaE w s m).result = .ok () →
      mutationFree (prepareOllamaE (prepareOllamaE w s m).world
        (prepareOllamaE w s m).state m).trace = true) ∧
    ((prepareLMStudioE w s m d).result = .ok () →
      mutationFree (prepareLMStudioE (prepareLMStudioE w s m d).world
        (prepareLMStudioE w s m d).state m d).trace = true) := by
  intro w s m d
  constructor
  · intro h
    simp only [prepareOllamaE, withLock_result] at h
    simp only [prepareOllamaE, withLock_state, withLock_world, mutationFree_withLock]
    exact c4_ollama_aux w s m h
  · intro h
    simp only [prepareLMStudioE, withLock_result] at h
    simp only [prepareLMStudioE, withLock_state, withLock_world, mutationFree_withLock]
    exact c4_lms_aux w s m d h

/-- C4 witness: in `wBoth` both first calls succeed and both second calls
issue no unload/load call. -/
theorem c4_idempotent_prepare_witness :
    mutationFree (prepareOllamaE (prepareOllamaE wBoth sNone "qwen").world
      (prepareOllamaE wBoth sNone "qwen").state "qwen").trace = true ∧
    mutationFree (prepareLMStudioE (prepareLMStudioE wBoth sNone "qwen" 32768).world
      (prepareLMStudioE wBoth sNone "qwen" 32768).state "qwen" 32768).trace = true :=
  ⟨(c4_idempotent_prepare wBoth sNone "qwen" 32768).1 rfl,
    (c4_idempotent_prepare wBoth sNone "qwen" 32768).2 rfl⟩

/-- C5: in every prepare execution past the fast path with the target
backend reachable, the unload protocol against the competing backend runs
to completion first: the trace is exactly the lock, the reachability check,
the full competing-backend unload sweep, and then a remainder that contains
no further call to the competing backend — so every unload, load, or
warm-up call to the target backend comes after the competing sweep has
finished. This holds in particular when the target model is already
resident on the target backend. -/
theorem c5_competing_unload_first : ∀ (w : World) (s : RMState) (m : String) (d : Nat),
    (¬(s.activeProvider = some "Ollama" ∧ s.activeModel = some m) →
      w.ollamaReachable = true →
      ∃ t, (prepareOllamaE w s m).trace =
          Eff.lockAcquired :: Eff.ollamaReachCheck :: ((unloadAllLMStudioE w).trace ++ t) ∧
        ∀ e ∈ t, isLMSEff e = false) ∧
    (¬(s.activeProvider = some "LMStudio" ∧ s.activeModel = some m) →
      w.lmsReachable = true →
      ∃ t, (prepareLMStudioE w s m d).trace =
          Eff.lockAcquired :: Eff.lmsReachCheck :: ((unloadAllOllamaE w).trace ++ t) ∧
        ∀ e ∈ t, isOllamaEff e = false) := by
  intro w s m d
  exact ⟨fun h1 h2 => c5_ollama_aux w s m h1 h2, fun h1 h2 => c5_lms_aux w s m d h1 h2⟩

/-- C5 witness at `wBoth`, where the target model "qwen" is already
resident on both backends: the competing sweep still runs first. -/
theorem c5_competing_unload_first_witness :
    (∃ t, (prepareOllamaE wBoth sNone "qwen").trace =
        Eff.lockAcquired :: Eff.ollamaReachCheck ::
          ((unloadAllLMStudioE wBoth).trace ++ t) ∧
      ∀ e ∈ t, isLMSEff e = false) ∧
    (∃ t, (prepareLMStudioE wBoth sNone "qwen" 32768).trace =
        Eff.lockAcquired :: Eff.lmsReachCheck ::
          ((unloadAllOllamaE wBoth).trace ++ t) ∧
      ∀ e ∈ t, isOllamaEff e = false) :=
  ⟨(c5_competing_unload_first wBoth sNone "qwen" 32768).1 (by decide) rfl,
    (c5_competing_unload_first wBoth sNone "qwen" 32768).2 (by decide) rfl⟩

/-- C6 counterexample: the public operation `resetTracking` writes the
tracked state (it emits a state write) while the GPU mutex is not held —
its trace has a write at lock depth zero — contradicting the claim that no
public operation of the arbiter writes `activeProvider`/`activeModel`
without holding the lock. -/
theorem c6_counterexample :
    (resetTrackingE ⟨some "Ollama", some "qwen"⟩).2 = [Eff.stateWrite none none] ∧
    writesInsideLock (resetTrackingE ⟨some "Ollama", some "qwen"⟩).2 = false :=
  ⟨rfl, rfl⟩

/-- C6 amended: every mutation of the tracked state performed by
`prepareOllama`, `prepareLMStudio`, `unloadAll` and `forceUnloadAll`
happens inside the mutex critical section (every state write in their
traces occurs at positive lock depth), but `resetTracking` writes the
tracked state without holding the lock. -/
theorem c6_lock_discipline_amended : ∀ (w : World) (s : RMState) (m : String) (d : Nat),
    writesInsideLock (prepareOllamaE w s m).trace = true ∧
    writesInsideLock (prepareLMStudioE w s m d).trace = true ∧
    writesInsideLock (unloadAllE w s).trace = true ∧
    writesInsideLock (forceUnloadAllE w s).trace = true ∧
    writesInsideLock (resetTrackingE s).2 = false := by
  intro w s m d
  refine ⟨?_, ?_, ?_, ?_, rfl⟩
  · exact writesInsideLock_withLock _
      (fun e he => isLockEff_false_of_netOrWrite (netOrWrite_prepareOllamaBody w s m e he))
  · exact writesInsideLock_withLock _
      (fun e he => isLockEff_false_of_netOrWrite (netOrWrite_prepareLMStudioBody w s m d e he))
  · exact writesInsideLock_withLock _
      (fun e he => isLockEff_false_of_netOrWrite (netOrWrite_unloadAllBody w s e he))
  · exact writesInsideLock_withLock _
      (fun e he => isLockEff_false_of_netOrWrite (netOrWrite_forceUnloadAllBody w s e he))

/-- C7: for every system prompt, compact prompt availability, message list
and context window, the budget computation returns
`availableForOutput = max(4096, contextWindow - usedTokens)` for the fixed
positive floor 4096, so the output budget handed to the generation call is
never negative and never below the floor. -/
theorem c7_output_floor : ∀ (sys : String) (compact : Option String) (ac : Bool)
    (msgs : List String) (ctx : Int),
    (computeBudget sys compact ac msgs ctx).availableForOutput =
      max 4096 (ctx - (computeBudget sys compact ac msgs ctx).usedTokens) ∧
    (0 : Int) ≤ (computeBudget sys compact ac msgs ctx).availableForOutput ∧
    (4096 : Int) ≤ (computeBudget sys compact ac msgs ctx).availableForOutput := by
  intro sys compact ac msgs ctx
  refine ⟨rfl, le_trans (by norm_num) (le_max_left _ _), le_max_left _ _⟩

/-- C8 counterexample: with the 1641-word system prompt `sysBig`
(4103 estimated tokens), compact prompt "x" available, and context window
4606, the message list `["", ""]` extends `[""]` by one message, yet the
longer list yields a strictly larger `availableForOutput` (4097 over 4096):
the longer list overflows, which switches the computation to the tiny
compact prompt and frees far more budget than the extra message costs. This
contradicts the claimed monotonicity. -/
theorem c8_counterexample :
    (computeBudget sysBig (some "x") false ["", ""] 4606).availableForOutput >
    (computeBudget sysBig (some "x") false [""] 4606).availableForOutput := by
  have h2 : estimateTokens "" = 3 := rfl
  have h3 : estimateTokens "x" = 3 := rfl
  simp [computeBudget, msgTokens, estimateTokens_sysBig, h2, h3]

/-- C8 amended: the monotonicity holds whenever the computation on the
longer list does not enter the overflow-handling branches: if the longer
list still fits the window (initial usedTokens at most the context window),
then the budget on the longer list never exceeds the budget on the shorter
list, all else equal. -/
theorem c8_budget_monotone_amended : ∀ (sys : String) (compact : Option String)
    (ac : Bool) (msgs1 extra : List String) (ctx : Int),
    (estimateTokens sys : Int) + (msgTokens (msgs1 ++ extra) : Int) + 500 ≤ ctx →
    (computeBudget sys compact ac (msgs1 ++ extra) ctx).availableForOutput ≤
      (computeBudget sys compact ac msgs1 ctx).availableForOutput := by
  intro sys compact ac msgs1 extra ctx h
  have hm := msgTokens_append msgs1 extra
  have h1 : (estimateTokens sys : Int) + (msgTokens msgs1 : Int) + 500 ≤ ctx := by
    omega
  rw [computeBudget_of_fits sys compact ac (msgs1 ++ extra) ctx h,
    computeBudget_of_fits sys compact ac msgs1 ctx h1]
  exact max_le_max (le_refl _) (by omega)

/-- C8 amended, witness: a fitting extension keeps the budget from
growing. -/
theorem c8_budget_monotone_amended_witness :
    (computeBudget "" none false ([] ++ [""]) 10000).availableForOutput ≤
      (computeBudget "" none false [] 10000).availableForOutput :=
  c8_budget_monotone_amended "" none false [] [""] 10000 (by decide)

/-- C9: the segment guard of the continuation loop is dead code. For every
positive segment bound, a session whose every generation call finishes with
reason `length` never transitions to the SegmentLimitExceeded error and has
issued `n + 1` generation calls after `n` continuations — in particular
`MAX_RESPONSE_SEGMENTS + 1` calls and beyond, with no bound: `chatAction`
compares the guard against `stream.switches`, which nothing ever
increments, so it stays zero. The claim (exactly MAX_SEGMENTS calls, then
SegmentLimitExceeded) describes the intended behaviour, which the code does
not implement. -/
theorem c9_segment_guard_dead : ∀ (maxSegments : Nat) (model provider : String)
    (texts : Nat → String) (n : Nat), 0 < maxSegments →
    (runLengthSession maxSegments model provider texts n).segLimitErrored = false ∧
    (runLengthSession maxSegments model provider texts n).callsIssued = n + 1 ∧
    (runLengthSession maxSegments model provider texts n).switches = 0 := by
  intro ms model provider texts n hms
  induction n with
  | zero => exact ⟨rfl, rfl, rfl⟩
  | succ k ih =>
      obtain ⟨he, hc, hs⟩ := ih
      have hlt : ¬(runLengthSession ms model provider texts k).switches ≥ ms := by
        rw [hs]; omega
      simp only [runLengthSession, onFinishLength, he, if_neg hlt]
      simp [he, hc, hs]

/-- C9 witness: with segment bound 2 and every call reporting the length
limit, after 2 continuations the session has issued 3 generation calls and
still reports no segment-limit error. -/
theorem c9_segment_guard_dead_witness :
    (runLengthSession 2 "m" "p" (fun _ => "t") 2).segLimitErrored = false ∧
    (runLengthSession 2 "m" "p" (fun _ => "t") 2).callsIssued = 2 + 1 ∧
    (runLengthSession 2 "m" "p" (fun _ => "t") 2).switches = 0 :=
  c9_segment_guard_dead 2 "m" "p" (fun _ => "t") 2 (by decide)

/-- C10: `pickNumCtx` never exceeds the desired context length, is
non-increasing as the model size grows (in particular across the 10 GB and
20 GB thresholds), and is capped at 16384 above 10 GB and at 8192 above
20 GB (sizes compared against 10 * 2^30 and 20 * 2^30 bytes, matching the
exact float division of the source). -/
theorem c10_pickNumCtx_caps : ∀ b1 b2 d : Nat, b1 ≤ b2 →
    pickNumCtx b1 d ≤ d ∧
    pickNumCtx b2 d ≤ pickNumCtx b1 d ∧
    (b1 > 10 * 1073741824 → pickNumCtx b1 d ≤ 16384) ∧
    (b1 > 20 * 1073741824 → pickNumCtx b1 d ≤ 8192) := by
  intro b1 b2 d h
  have e20 : ∀ b, b > 20 * 1073741824 → pickNumCtx b d = min d 8192 := by
    intro b hb
    simp [pickNumCtx, hb]
  have e10 : ∀ b, ¬(b > 20 * 1073741824) → b > 10 * 1073741824 →
      pickNumCtx b d = min d 16384 := by
    intro b hb1 hb2
    simp [pickNumCtx, hb1, hb2]
  have e0 : ∀ b, ¬(b > 20 * 1073741824) → ¬(b > 10 * 1073741824) →
      pickNumCtx b d = d := by
    intro b hb1 hb2
    simp [pickNumCtx, hb1, hb2]
  have hub : ∀ b, pickNumCtx b d ≤ d := by
    intro b
    by_cases hb1 : b > 20 * 1073741824
    · rw [e20 b hb1]; exact min_le_left _ _
    · by_cases hb2 : b > 10 * 1073741824
      · rw [e10 b hb1 hb2]; exact min_le_left _ _
      · rw [e0 b hb1 hb2]
  refine ⟨hub b1, ?_, ?_, ?_⟩
  · by_cases h20 : b1 > 20 * 1073741824
    · rw [e20 b1 h20, e20 b2 (by omega)]
    · by_cases h10 : b1 > 10 * 1073741824
      · rw [e10 b1 h20 h10]
        by_cases h20b : b2 > 20 * 1073741824
        · rw [e20 b2 h20b]
          exact min_le_min (le_refl d) (by norm_num)
        · rw [e10 b2 h20b (by omega)]
      · rw [e0 b1 h20 h10]
        exact hub b2
  · intro hb
    by_cases h20 : b1 > 20 * 1073741824
    · rw [e20 b1 h20]
      exact le_trans (min_le_right _ _) (by norm_num)
    · rw [e10 b1 h20 hb]
      exact min_le_right _ _
  · intro hb
    rw [e20 b1 hb]
    exact min_le_right _ _

/-- C10 witness: an 11 GB model is capped at 16384, a 22 GB model at 8192,
and the larger model never gets a larger context. -/
theorem c10_pickNumCtx_caps_witness :
    pickNumCtx 11811160064 32768 ≤ 32768 ∧
    pickNumCtx 23622320128 32768 ≤ pickNumCtx 11811160064 32768 ∧
    (11811160064 > 10 * 1073741824 → pickNumCtx 11811160064 32768 ≤ 16384) ∧
    (11811160064 > 20 * 1073741824 → pickNumCtx 11811160064 32768 ≤ 8192) :=
  c10_pickNumCtx_caps 11811160064 23622320128 32768 (by decide)

end Vibe
